import Mathlib

/-!
Shallow embedding of the document-extraction program (`main.py`): the file
loaders with their extension validation, the `DataExtractor` walkers for the
three document formats (PDF, DOCX, PPTX), the heading classifier, and the two
storage sinks (`FileStorage`, `SQLStorage`).

Modelling conventions: Python floats are modelled as rationals (`ℚ`); Python
`None` is `Option.none`; a Python dict access with a default is an `Option`
field read with `Option.getD`; the filesystem is a map from file name to file
content; the relational sink is modelled by the list of rows it inserts.
-/

/-! ## Python string primitives -/

/-- `listStartsWith pre l` is `true` iff `pre` is a leading segment of `l`
(exact, case-sensitive character comparison). -/
def listStartsWith : List Char → List Char → Bool
  | [], _ => true
  | _ :: _, [] => false
  | a :: as, b :: bs => a == b && listStartsWith as bs

/-- `strContains hay needle` models Python's `needle in hay` on strings:
`true` iff `needle` occurs contiguously inside `hay` (the empty needle occurs
in every string). -/
def strContains (hay needle : List Char) : Bool :=
  match hay with
  | [] => needle.isEmpty
  | c :: t => listStartsWith needle (c :: t) || strContains t needle

/-- Python `needle in hay` for `String`s. -/
def pyInStr (needle hay : String) : Bool :=
  strContains hay.data needle.data

/-- Python `s.endswith(suf)`: case-sensitive suffix test. -/
def pyEndswith (s suf : String) : Bool :=
  listStartsWith suf.data.reverse s.data.reverse

/-- Both-ends whitespace trim on a character list (models Python `str.strip()`;
the whitespace set is the ASCII one exposed by `Char.isWhitespace`). -/
def stripChars (l : List Char) : List Char :=
  ((l.dropWhile Char.isWhitespace).reverse.dropWhile Char.isWhitespace).reverse

/-- Python `s.strip()`. -/
def pystrip (s : String) : String :=
  ⟨stripChars s.data⟩

/-- Python `x if x else d` on an optional string: `None` and `""` are falsy. -/
def strOrDefault (v : Option String) (d : String) : String :=
  match v with
  | none => d
  | some s => if s = "" then d else s

/-! ## Heading classifier -/

/-- A Python value passed as `font_size`: `some q` coerces under `float(...)`
to the number `q`; `none` stands for a value on which `float(...)` raises
`ValueError`/`TypeError`. -/
abbrev PyNum := Option ℚ

/-- The `try: fs = float(font_size) except (ValueError, TypeError): fs = 0`
block of `is_heading`: coercion failure yields `0`. -/
def floatOrZero (v : PyNum) : ℚ :=
  v.getD 0

/-- `is_heading` from `DataExtractor.extract_text`:
`return bold or fs > 12`. -/
def is_heading (font_size : PyNum) (bold : Bool) : Bool :=
  bold || floatOrZero font_size > 12

/-! ## Record model (the tuples appended by the walkers) -/

/-- One `(page_num, text, data_type, font_name, font_size, bold, italic)`
tuple appended by `extract_text`. -/
structure TextRec where
  loc : Nat
  text : String
  data_type : String
  font_name : String
  font_size : ℚ
  bold : Bool
  italic : Bool
deriving DecidableEq

/-- A decoded bitmap (`PIL.Image` object): pixel dimensions plus an opaque
pixel payload. -/
structure Bitmap where
  width : Nat
  height : Nat
  pix : Nat
deriving DecidableEq

/-- One `(location, "PNG", size, img_obj)` tuple appended by
`extract_images`. -/
structure ImageRec where
  loc : Nat
  fmt : String
  width : Nat
  height : Nat
  img : Bitmap
deriving DecidableEq

/-- One `(location, len(table), len(table[0]) if table else 0, table)` tuple
appended by `extract_tables`. -/
structure TableRec where
  loc : Nat
  row_count : Nat
  col_count : Nat
  cells : List (List String)
deriving DecidableEq

/-- `len(table[0]) if table else 0`. -/
def headLen (t : List (List String)) : Nat :=
  match t with
  | [] => 0
  | r :: _ => r.length

/-! ## Native document models -/

/-- One `span` dict of a fitz text line: `text`, `font` and `size` keys may be
absent (the code reads them with `.get` and a default). -/
structure PdfSpan where
  text : Option String
  font : Option String
  size : Option ℚ
deriving DecidableEq

/-- One block of `page.get_text("dict")["blocks"]`: a type-0 text block holds
lines, each a list of spans; any other block type is skipped. -/
inductive PdfBlock where
  | text (lines : List (List PdfSpan))
  | other
deriving DecidableEq

/-- One PDF page annotation: it may or may not carry a `uri` entry. -/
structure PdfAnnot where
  uri : Option String
deriving DecidableEq

/-- One PDF page, carrying the four native traversal structures the walkers
read: text blocks, annotations, decoded embedded images (native listing
order), and the grids produced by `page.extract_tables()`. -/
structure PdfPage where
  blocks : List PdfBlock
  annots : List PdfAnnot
  images : List Bitmap
  tables : List (List (List String))
deriving DecidableEq

/-- One DOCX run: `run.text` plus the optional style attributes the walker
reads (`run.font.name`, `run.font.size` in points, `run.bold`,
`run.italic`). -/
structure DocxRun where
  text : String
  font_name : Option String
  size_pt : Option ℚ
  bold : Option Bool
  italic : Option Bool
deriving DecidableEq

/-- One DOCX paragraph: its runs and its full `para.text`. -/
structure DocxPara where
  runs : List DocxRun
  text : String
deriving DecidableEq

/-- One relationship of `document.part.rels` (iteration order is the dict
order): its type URI, its target reference, and the decoded payload of its
target part (meaningful for image relationships). -/
structure DocxRel where
  reltype : String
  target_ref : String
  blob : Bitmap
deriving DecidableEq

/-- A loaded DOCX document: paragraphs, part relationships, and tables as
row-major grids of raw cell text. -/
structure DocxDoc where
  paragraphs : List DocxPara
  rels : List DocxRel
  tables : List (List (List String))
deriving DecidableEq

/-- One PPTX run: `run.text`, the resolved font attributes, and
`run.hyperlink.address` (flattened to `none` when the run has no hyperlink or
no address). -/
structure PptxRun where
  text : String
  font_name : Option String
  size_pt : Option ℚ
  bold : Option Bool
  italic : Option Bool
  hyperlink_address : Option String
deriving DecidableEq

/-- One PPTX shape: an optional text frame (paragraphs of runs), an optional
table grid (`has_table`/`shape.table`), the shape-type tag (13 = picture) and
the decoded picture payload read when the tag is 13. -/
structure PptxShape where
  text_frame : Option (List (List PptxRun))
  has_table : Bool
  table : List (List String)
  shape_type : Int
  image : Bitmap
deriving DecidableEq

/-- One PPTX slide. -/
structure PptxSlide where
  shapes : List PptxShape
deriving DecidableEq

/-- The loaded document held by a `DataExtractor`, discriminated the way the
code discriminates (`file_path.endswith` / `isinstance` / `hasattr`). -/
inductive Doc where
  | pdf (pages : List PdfPage)
  | docx (d : DocxDoc)
  | pptx (slides : List PptxSlide)
deriving DecidableEq

/-! ## extract_text -/

/-- The record built from one PDF span (before the blank-text guard):
`font_name = span.get("font", "Default")`, `font_size = span.get("size", 0)`,
`bold = "Bold" in font_name`, `italic = False`. -/
def pdfSpanRec (pageIdx : Nat) (s : PdfSpan) : TextRec :=
  { loc := pageIdx + 1
    text := pystrip (s.text.getD "")
    data_type :=
      if is_heading (some (s.size.getD 0)) (pyInStr "Bold" (s.font.getD "Default"))
      then "heading" else "text"
    font_name := s.font.getD "Default"
    font_size := s.size.getD 0
    bold := pyInStr "Bold" (s.font.getD "Default")
    italic := false }

/-- The records one PDF span contributes: none when the stripped text is
empty, else exactly `pdfSpanRec`. -/
def pdfSpanRecs (pageIdx : Nat) (s : PdfSpan) : List TextRec :=
  if pystrip (s.text.getD "") = "" then [] else [pdfSpanRec pageIdx s]

/-- `for i, page in enumerate(doc)` of the PDF text walker, carrying the
running page index. -/
def pdfPagesText : Nat → List PdfPage → List TextRec
  | _, [] => []
  | i, p :: rest =>
      (p.blocks.flatMap fun b =>
        match b with
        | .text lines => lines.flatMap fun line => line.flatMap (pdfSpanRecs i)
        | .other => []) ++ pdfPagesText (i + 1) rest

/-- The record built from one DOCX run (before the blank-text guard); the
location is fixed at 1. -/
def docxRunRec (r : DocxRun) : TextRec :=
  { loc := 1
    text := pystrip r.text
    data_type :=
      if is_heading (some (r.size_pt.getD 0)) (r.bold.getD false)
      then "heading" else "text"
    font_name := strOrDefault r.font_name "Default"
    font_size := r.size_pt.getD 0
    bold := r.bold.getD false
    italic := r.italic.getD false }

/-- The records one DOCX run contributes. -/
def docxRunRecs (r : DocxRun) : List TextRec :=
  if pystrip r.text = "" then [] else [docxRunRec r]

/-- The record built from one PPTX run (before the blank-text guard);
location = slide index + 1. -/
def pptxRunRec (slideIdx : Nat) (r : PptxRun) : TextRec :=
  { loc := slideIdx + 1
    text := pystrip r.text
    data_type :=
      if is_heading (some (r.size_pt.getD 0)) (r.bold.getD false)
      then "heading" else "text"
    font_name := strOrDefault r.font_name "Default"
    font_size := r.size_pt.getD 0
    bold := r.bold.getD false
    italic := r.italic.getD false }

/-- The records one PPTX run contributes. -/
def pptxRunRecs (slideIdx : Nat) (r : PptxRun) : List TextRec :=
  if pystrip r.text = "" then [] else [pptxRunRec slideIdx r]

/-- `for i, slide in enumerate(pres.slides)` of the PPTX text walker; only
shapes exposing a text frame contribute. -/
def pptxSlidesText : Nat → List PptxSlide → List TextRec
  | _, [] => []
  | i, s :: rest =>
      (s.shapes.flatMap fun sh =>
        match sh.text_frame with
        | none => []
        | some paras => paras.flatMap fun para => para.flatMap (pptxRunRecs i)) ++
        pptxSlidesText (i + 1) rest

/-- `DataExtractor.extract_text`, dispatched on the loaded document kind. -/
def extract_text : Doc → List TextRec
  | .pdf pages => pdfPagesText 0 pages
  | .docx d => d.paragraphs.flatMap fun p => p.runs.flatMap docxRunRecs
  | .pptx slides => pptxSlidesText 0 slides

/-! ## extract_links -/

/-- PDF link walker: one `(page, uri)` per annotation whose `uri` entry is
present and truthy (non-empty). -/
def pdfPagesLinks : Nat → List PdfPage → List (Nat × String)
  | _, [] => []
  | i, p :: rest =>
      (p.annots.flatMap fun a =>
        match a.uri with
        | some u => if u = "" then [] else [(i + 1, u)]
        | none => []) ++ pdfPagesLinks (i + 1) rest

/-- The links one DOCX paragraph contributes: for every relationship whose
type contains `"hyperlink"`, if the paragraph text is truthy (non-empty) and
the relationship's `target_ref` occurs in it, emit `(1, target_ref)`. -/
def docxParaLinks (rels : List DocxRel) (p : DocxPara) : List (Nat × String) :=
  rels.flatMap fun rel =>
    if pyInStr "hyperlink" rel.reltype then
      if !(p.text == "") && pyInStr rel.target_ref p.text then [(1, rel.target_ref)]
      else []
    else []

/-- PPTX link walker: one `(slide, address)` per run whose hyperlink address
is present and truthy (non-empty). -/
def pptxSlidesLinks : Nat → List PptxSlide → List (Nat × String)
  | _, [] => []
  | i, s :: rest =>
      (s.shapes.flatMap fun sh =>
        match sh.text_frame with
        | none => []
        | some paras =>
            paras.flatMap fun para =>
              para.flatMap fun run =>
                match run.hyperlink_address with
                | some a => if a = "" then [] else [(i + 1, a)]
                | none => []) ++
        pptxSlidesLinks (i + 1) rest

/-- `DataExtractor.extract_links`. -/
def extract_links : Doc → List (Nat × String)
  | .pdf pages => pdfPagesLinks 0 pages
  | .docx d => d.paragraphs.flatMap (docxParaLinks d.rels)
  | .pptx slides => pptxSlidesLinks 0 slides

/-! ## extract_images -/

/-- PDF image walker: one record per embedded image, location = page + 1. -/
def pdfPagesImages : Nat → List PdfPage → List ImageRec
  | _, [] => []
  | i, p :: rest =>
      p.images.map (fun b => ⟨i + 1, "PNG", b.width, b.height, b⟩) ++
        pdfPagesImages (i + 1) rest

/-- DOCX image walker: `for i, rel in enumerate(self.loader.part.rels)`; a
relationship contributes iff its `target_ref` contains `"image"`, with
location = its 1-based position among all relationships. -/
def docxRelsImages : Nat → List DocxRel → List ImageRec
  | _, [] => []
  | i, r :: rest =>
      (if pyInStr "image" r.target_ref then
        [⟨i + 1, "PNG", r.blob.width, r.blob.height, r.blob⟩]
      else []) ++ docxRelsImages (i + 1) rest

/-- PPTX image walker: shapes whose `shape_type` is 13 (picture). -/
def pptxSlidesImages : Nat → List PptxSlide → List ImageRec
  | _, [] => []
  | i, s :: rest =>
      (s.shapes.flatMap fun sh =>
        if sh.shape_type == 13 then
          [⟨i + 1, "PNG", sh.image.width, sh.image.height, sh.image⟩]
        else []) ++ pptxSlidesImages (i + 1) rest

/-- `DataExtractor.extract_images`. -/
def extract_images : Doc → List ImageRec
  | .pdf pages => pdfPagesImages 0 pages
  | .docx d => docxRelsImages 0 d.rels
  | .pptx slides => pptxSlidesImages 0 slides

/-! ## extract_tables -/

/-- Row-major trimming of a grid's cell text (`cell.text.strip()`). -/
def stripGrid (t : List (List String)) : List (List String) :=
  t.map fun row => row.map pystrip

/-- PDF table walker: each detected grid is recorded raw. -/
def pdfPagesTables : Nat → List PdfPage → List TableRec
  | _, [] => []
  | i, p :: rest =>
      p.tables.map (fun t => ⟨i + 1, t.length, headLen t, t⟩) ++
        pdfPagesTables (i + 1) rest

/-- DOCX table walker: `for i, table in enumerate(self.loader.tables)` with a
trimmed grid. -/
def docxTablesGo : Nat → List (List (List String)) → List TableRec
  | _, [] => []
  | i, t :: rest =>
      ⟨i + 1, (stripGrid t).length, headLen (stripGrid t), stripGrid t⟩ ::
        docxTablesGo (i + 1) rest

/-- PPTX table walker: shapes flagged `has_table`, with a trimmed grid. -/
def pptxSlidesTables : Nat → List PptxSlide → List TableRec
  | _, [] => []
  | i, s :: rest =>
      (s.shapes.flatMap fun sh =>
        if sh.has_table then
          [⟨i + 1, (stripGrid sh.table).length, headLen (stripGrid sh.table),
            stripGrid sh.table⟩]
        else []) ++ pptxSlidesTables (i + 1) rest

/-- `DataExtractor.extract_tables`. -/
def extract_tables : Doc → List TableRec
  | .pdf pages => pdfPagesTables 0 pages
  | .docx d => docxTablesGo 0 d.tables
  | .pptx slides => pptxSlidesTables 0 slides

/-! ## Loaders and validation -/

/-- The three concrete loader classes. -/
inductive Fmt where
  | pdf
  | docx
  | pptx
deriving DecidableEq

/-- The extension each loader's `validate_file` demands. -/
def expectedExt : Fmt → String
  | .pdf => ".pdf"
  | .docx => ".docx"
  | .pptx => ".pptx"

/-- The `ValueError` message each loader raises. -/
def errMsgOf : Fmt → String
  | .pdf => "Invalid file type. Expected a PDF file."
  | .docx => "Invalid file type. Expected a DOCX file."
  | .pptx => "Invalid file type. Expected a PPTX file."

/-- `validate_file` of the concrete loaders: raises `ValueError` unless the
path ends with the expected extension. -/
def validate_file (f : Fmt) (path : String) : Except String Unit :=
  if pyEndswith path (expectedExt f) then .ok () else .error (errMsgOf f)

/-- `FileLoader.__init__`: stores the path, then validates. No parsing
happens here (`load_file` is a separate method, not called by the
constructor); on success the constructed loader's `file_path` is returned. -/
def FileLoader_init (f : Fmt) (path : String) : Except String String :=
  match validate_file f path with
  | .ok _ => .ok path
  | .error e => .error e

/-! ## FileStorage -/

/-- One row of `tables.csv`: a one-cell `Page <p> (<r>x<c>)` marker or a raw
grid row. -/
inductive CsvRow where
  | header (loc rows cols : Nat)
  | cells (row : List String)
deriving DecidableEq

/-- The contents of a file written by `FileStorage.save_data`: the text file
(one formatted line per text record, in order), the CSV file, or a PNG
re-encoding of a bitmap. -/
inductive FileData where
  | textFile (recs : List TextRec)
  | csvFile (rows : List CsvRow)
  | pngFile (img : Bitmap)
deriving DecidableEq

/-- `tables.csv` rows: per table, its header marker then its grid rows. -/
def csvRowsOf (ts : List TableRec) : List CsvRow :=
  ts.flatMap fun t => CsvRow.header t.loc t.row_count t.col_count :: t.cells.map CsvRow.cells

/-- The output directory as a map from file name to content. -/
abbrev FS := String → Option FileData

/-- One `open(..., "w")` / `img.save(...)`: overwrite the named file. -/
def writeFile (fs : FS) (w : String × FileData) : FS :=
  fun n => if n = w.1 then some w.2 else fs n

/-- Perform a list of writes in order. -/
def writeAll (ws : List (String × FileData)) (fs : FS) : FS :=
  ws.foldl writeFile fs

/-- The writes `FileStorage.save_data` performs, in program order:
`text_data.txt` (mode `"w"`), `tables.csv` (mode `"w"`), then one
`image_<i>.png` per image record where `i` is the record's first tuple
component (its location field). -/
def fileWrites (d : Doc) : List (String × FileData) :=
  ("text_data.txt", FileData.textFile (extract_text d)) ::
    ("tables.csv", FileData.csvFile (csvRowsOf (extract_tables d))) ::
    (extract_images d).map fun r =>
      ("image_" ++ toString r.loc ++ ".png", FileData.pngFile r.img)

/-- `FileStorage.save_data` as a transformer of the output directory. -/
def FileStorage_save_data (d : Doc) (fs : FS) : FS :=
  writeAll (fileWrites d) fs

/-! ## SQLStorage -/

/-- The `os.stat` metadata captured by the extractor. -/
structure Metadata where
  file_size : Nat
  creation_time : Int
  modification_time : Int
deriving DecidableEq

/-- One row inserted into `extracted_data` (the autoincrement id aside). -/
structure SqlRow where
  file_name : String
  file_size : Nat
  creation_time : Int
  modification_time : Int
  page_number : Nat
  data_type : String
  content : String
  font_name : String
  font_size : ℚ
  bold : Bool
  italic : Bool
deriving DecidableEq

/-- Models the external `json.dumps` on a row-major grid of strings (an
external collaborator; no claim relies on its exact escaping). -/
def jsonOfGrid (t : List (List String)) : String :=
  "[" ++ String.intercalate ", " (t.map fun row =>
    "[" ++ String.intercalate ", " (row.map fun c => "\"" ++ c ++ "\"") ++ "]") ++ "]"

/-- `SQLStorage.save_data` as the ordered list of rows it inserts under one
connection and one commit: one row per text record, then one per link, then
one per table. -/
def SQLStorage_save_data (m : Metadata) (file_name : String) (d : Doc) : List SqlRow :=
  ((extract_text d).map fun r =>
    ⟨file_name, m.file_size, m.creation_time, m.modification_time,
      r.loc, r.data_type, r.text, r.font_name, r.font_size, r.bold, r.italic⟩) ++
  ((extract_links d).map fun l =>
    ⟨file_name, m.file_size, m.creation_time, m.modification_time,
      l.1, "link", l.2, "", 0, false, false⟩) ++
  ((extract_tables d).map fun t =>
    ⟨file_name, m.file_size, m.creation_time, m.modification_time,
      t.loc, "table", jsonOfGrid t.cells, "", 0, false, false⟩)

/-! ## Concrete documents used by witnesses and counterexamples -/

/-- A trivial bitmap payload. -/
def bm0 : Bitmap := ⟨0, 0, 0⟩

/-- A one-run DOCX paragraph with text `"hi"` and no explicit styling. -/
def witDocxRun : DocxRun := ⟨"hi", none, none, none, none⟩

/-- A one-paragraph DOCX document with no relationships and no tables. -/
def witDocxDoc : Doc := .docx ⟨[⟨[witDocxRun], "hi"⟩], [], []⟩

/-- A one-page PDF document whose page carries one detected 2×2 table. -/
def witPdfTablesDoc : Doc := .pdf [⟨[], [], [], [[["a", "b"], ["c", "d"]]]⟩]

/-- A one-page PDF document with a single bold 14pt span. -/
def witPdfSpan : PdfSpan := ⟨some " Hello PDF ", some "MyBoldFont", some 14⟩

/-- The PDF document wrapping `witPdfSpan`. -/
def witPdfTextDoc : Doc := .pdf [⟨[.text [[witPdfSpan]]], [], [], []⟩]

/-- DOCX document A for the sink-independence witness: one hyperlink
relationship whose target occurs in the paragraph text. -/
def c4DocA : Doc := .docx ⟨[⟨[witDocxRun], "see http://a"⟩], [⟨"x-hyperlink", "http://a", bm0⟩], []⟩

/-- DOCX document B: as `c4DocA` but with no relationships at all. -/
def c4DocB : Doc := .docx ⟨[⟨[witDocxRun], "see http://a"⟩], [], []⟩

/-- A metadata record for witnesses. -/
def witMeta : Metadata := ⟨10, 100, 200⟩

/-- A one-page PDF whose page embeds two images (so two image records share
location 1). -/
def c5Doc : Doc := .pdf [⟨[], [], [⟨5, 5, 1⟩, ⟨6, 6, 2⟩], []⟩]

/-- DOCX document with one empty-text paragraph and one hyperlink
relationship whose target is the empty string. -/
def c8CexDoc : Doc := .docx ⟨[⟨[], ""⟩], [⟨"hyperlink", "", bm0⟩], []⟩

/-- Same degenerate shape as `c8CexDoc` with a different relationship type
string (still containing `"hyperlink"`). -/
def c9CexDoc : Doc := .docx ⟨[⟨[], ""⟩], [⟨"w/hyperlink", "", bm0⟩], []⟩

/-- A paragraph and relationship pair for the C8 witness. -/
def witC8Para : DocxPara := ⟨[], "see http://a now"⟩

/-- The matching hyperlink relationship for the C8 witness. -/
def witC8Rel : DocxRel := ⟨"x-hyperlink-y", "http://a", bm0⟩

/-- A non-hyperlink relationship present alongside `witC8Rel`. -/
def witC8OtherRel : DocxRel := ⟨"x-imagepart-y", "zz", bm0⟩

/-! ## Helper lemmas: strings -/

/-- `listStartsWith` agrees with list-append decomposition. -/
theorem listStartsWith_iff (pre l : List Char) :
    listStartsWith pre l = true ↔ ∃ t, l = pre ++ t := by
  induction pre generalizing l with
  | nil => simp [listStartsWith]
  | cons a as ih =>
    cases l with
    | nil => simp [listStartsWith]
    | cons b bs =>
      simp only [listStartsWith, Bool.and_eq_true, beq_iff_eq, ih, List.cons_append,
        List.cons.injEq]
      constructor
      · rintro ⟨rfl, t, rfl⟩
        exact ⟨t, rfl, rfl⟩
      · rintro ⟨t, rfl, rfl⟩
        exact ⟨rfl, t, rfl⟩

/-- `strContains` agrees with contiguous-occurrence decomposition. -/
theorem strContains_iff (hay needle : List Char) :
    strContains hay needle = true ↔ ∃ l r, hay = l ++ needle ++ r := by
  induction hay with
  | nil =>
    simp only [strContains, List.isEmpty_iff]
    constructor
    · rintro rfl
      exact ⟨[], [], rfl⟩
    · rintro ⟨l, r, h⟩
      rcases List.append_eq_nil.mp h.symm with ⟨h1, h2⟩
      exact (List.append_eq_nil.mp h1).2
  | cons c t ih =>
    simp only [strContains, Bool.or_eq_true, listStartsWith_iff, ih]
    constructor
    · rintro (⟨s, hs⟩ | ⟨l, r, hr⟩)
      · exact ⟨[], s, by simpa using hs⟩
      · exact ⟨c :: l, r, by simp [hr]⟩
    · rintro ⟨l, r, h⟩
      cases l with
      | nil => exact Or.inl ⟨r, by simpa using h⟩
      | cons x xs =>
        rw [List.cons_append, List.cons_append, List.cons.injEq] at h
        exact Or.inr ⟨xs, r, by simpa using h.2⟩

/-- `pyInStr` agrees with substring decomposition on the underlying
character lists. -/
theorem pyInStr_iff (needle hay : String) :
    pyInStr needle hay = true ↔ ∃ l r, hay.data = l ++ needle.data ++ r :=
  strContains_iff hay.data needle.data

/-- `pyEndswith` agrees with suffix decomposition on the underlying
character lists. -/
theorem pyEndswith_iff (s suf : String) :
    pyEndswith s suf = true ↔ ∃ t, s.data = t ++ suf.data := by
  unfold pyEndswith
  rw [listStartsWith_iff]
  constructor
  · rintro ⟨t, ht⟩
    refine ⟨t.reverse, ?_⟩
    have h2 := congrArg List.reverse ht
    simpa using h2
  · rintro ⟨t, ht⟩
    exact ⟨t.reverse, by simp [ht]⟩

/-! ## Helper lemmas: strip -/

/-- Dropping a satisfying front segment twice is the same as once. -/
theorem dropWhile_twice (p : Char → Bool) (l : List Char) :
    (l.dropWhile p).dropWhile p = l.dropWhile p := by
  induction l with
  | nil => rfl
  | cons a t ih =>
    by_cases h : p a
    · rw [List.dropWhile_cons, if_pos h, ih]
    · rw [List.dropWhile_cons, if_neg h, List.dropWhile_cons, if_neg h]

/-- `dropWhile` removes a front segment. -/
theorem dropWhile_front (p : Char → Bool) (l : List Char) :
    ∃ s, l = s ++ l.dropWhile p := by
  induction l with
  | nil => exact ⟨[], rfl⟩
  | cons a t ih =>
    by_cases h : p a
    · obtain ⟨s, hs⟩ := ih
      refine ⟨a :: s, ?_⟩
      rw [List.dropWhile_cons, if_pos h, List.cons_append, ← hs]
    · exact ⟨[], by rw [List.dropWhile_cons, if_neg h, List.nil_append]⟩

/-- `dropWhile` never lengthens a list. -/
theorem dropWhile_length_le (p : Char → Bool) (l : List Char) :
    (l.dropWhile p).length ≤ l.length := by
  induction l with
  | nil => exact Nat.le_refl _
  | cons a t ih =>
    by_cases h : p a
    · rw [List.dropWhile_cons, if_pos h]
      exact Nat.le_trans ih (Nat.le_succ _)
    · rw [List.dropWhile_cons, if_neg h]

/-- A nonempty `dropWhile` fixed point has a head that fails the test. -/
theorem dropWhile_fix_head (p : Char → Bool) (c : Char) (rest : List Char)
    (h : (c :: rest).dropWhile p = c :: rest) : p c = false := by
  by_contra hc
  rw [Bool.not_eq_false] at hc
  rw [List.dropWhile_cons, if_pos hc] at h
  have hlen := dropWhile_length_le p rest
  rw [h] at hlen
  simp at hlen

/-- A left factor of a `dropWhile` fixed point is itself a fixed point. -/
theorem dropWhile_eq_self_of_append (p : Char → Bool) (r w : List Char)
    (h : (r ++ w).dropWhile p = r ++ w) : r.dropWhile p = r := by
  cases r with
  | nil => rfl
  | cons c t =>
    have hc : p c = false := dropWhile_fix_head p c (t ++ w) (by simpa using h)
    rw [List.dropWhile_cons, if_neg (by simp [hc])]

/-- Trimming is idempotent on character lists. -/
theorem stripChars_idem (l : List Char) : stripChars (stripChars l) = stripChars l := by
  unfold stripChars
  set m := l.dropWhile Char.isWhitespace with hm
  set q := m.reverse.dropWhile Char.isWhitespace with hq
  have hqfix : q.dropWhile Char.isWhitespace = q := by
    rw [hq]
    exact dropWhile_twice _ _
  have hmfix : m.dropWhile Char.isWhitespace = m := by
    rw [hm]
    exact dropWhile_twice _ _
  obtain ⟨s, hs⟩ := dropWhile_front Char.isWhitespace m.reverse
  have hm2 : m = q.reverse ++ s.reverse := by
    have h2 := congrArg List.reverse hs
    simpa [← hq] using h2
  have hrfix : q.reverse.dropWhile Char.isWhitespace = q.reverse :=
    dropWhile_eq_self_of_append _ _ _ (by rw [← hm2]; exact hmfix)
  rw [hrfix, List.reverse_reverse, hqfix]

/-- Python `strip` is idempotent. -/
theorem pystrip_idem (s : String) : pystrip (pystrip s) = pystrip s :=
  congrArg String.mk (stripChars_idem s.data)

/-! ## Helper lemmas: filesystem writes -/

/-- The effect of a write list at one name: the value of the last write to
that name, else the previous content. -/
theorem writeAll_apply (ws : List (String × FileData)) (fs : FS) (n : String) :
    writeAll ws fs n =
      match ws.reverse.find? (fun w => n == w.1) with
      | some w => some w.2
      | none => fs n := by
  induction ws generalizing fs with
  | nil => rfl
  | cons w t ih =>
    show writeAll t (writeFile fs w) n = _
    rw [ih, List.reverse_cons, List.find?_append]
    cases hf : t.reverse.find? (fun w => n == w.1) with
    | some v => rfl
    | none =>
      show writeFile fs w n = _
      unfold writeFile
      by_cases hn : n = w.1
      · simp [hn]
      · simp [hn, List.find?, beq_eq_false_iff_ne.mpr hn]

/-- Replaying the same write list is a no-op. -/
theorem writeAll_self_idem (ws : List (String × FileData)) (fs : FS) :
    writeAll ws (writeAll ws fs) = writeAll ws fs := by
  funext n
  rw [writeAll_apply, writeAll_apply]
  cases hf : ws.reverse.find? (fun w => n == w.1) with
  | some v => rfl
  | none => rfl

/-! ## Helper lemmas: walker membership -/

/-- A record contributed by one PDF span is `pdfSpanRec`, emitted only under
the non-blank guard. -/
theorem mem_pdfSpanRecs {i : Nat} {s : PdfSpan} {r : TextRec}
    (h : r ∈ pdfSpanRecs i s) :
    pystrip (s.text.getD "") ≠ "" ∧ r = pdfSpanRec i s := by
  unfold pdfSpanRecs at h
  by_cases hc : pystrip (s.text.getD "") = ""
  · rw [if_pos hc] at h
    simp at h
  · rw [if_neg hc] at h
    exact ⟨hc, List.mem_singleton.mp h⟩

/-- A record contributed by one DOCX run is `docxRunRec`, emitted only under
the non-blank guard. -/
theorem mem_docxRunRecs {run : DocxRun} {r : TextRec}
    (h : r ∈ docxRunRecs run) :
    pystrip run.text ≠ "" ∧ r = docxRunRec run := by
  unfold docxRunRecs at h
  by_cases hc : pystrip run.text = ""
  · rw [if_pos hc] at h
    simp at h
  · rw [if_neg hc] at h
    exact ⟨hc, List.mem_singleton.mp h⟩

/-- A record contributed by one PPTX run is `pptxRunRec`, emitted only under
the non-blank guard. -/
theorem mem_pptxRunRecs {i : Nat} {run : PptxRun} {r : TextRec}
    (h : r ∈ pptxRunRecs i run) :
    pystrip run.text ≠ "" ∧ r = pptxRunRec i run := by
  unfold pptxRunRecs at h
  by_cases hc : pystrip run.text = ""
  · rw [if_pos hc] at h
    simp at h
  · rw [if_neg hc] at h
    exact ⟨hc, List.mem_singleton.mp h⟩

/-- Every PDF text record arises from some span. -/
theorem mem_pdfPagesText {i : Nat} {pages : List PdfPage} {r : TextRec}
    (h : r ∈ pdfPagesText i pages) : ∃ j s, r ∈ pdfSpanRecs j s := by
  induction pages generalizing i with
  | nil => simp [pdfPagesText] at h
  | cons p rest ih =>
    simp only [pdfPagesText, List.mem_append] at h
    rcases h with h | h
    · rw [List.mem_flatMap] at h
      obtain ⟨b, _, hb⟩ := h
      cases b with
      | text lines =>
        rw [List.mem_flatMap] at hb
        obtain ⟨line, _, hl⟩ := hb
        rw [List.mem_flatMap] at hl
        obtain ⟨s, _, hs⟩ := hl
        exact ⟨i, s, hs⟩
      | other => simp at hb
    · exact ih h

/-- Every DOCX text record arises from some run. -/
theorem mem_docxText {d : DocxDoc} {r : TextRec}
    (h : r ∈ extract_text (Doc.docx d)) : ∃ run, r ∈ docxRunRecs run := by
  simp only [extract_text, List.mem_flatMap] at h
  obtain ⟨p, _, run, _, hr⟩ := h
  exact ⟨run, hr⟩

/-- Every PPTX text record arises from some run. -/
theorem mem_pptxSlidesText {i : Nat} {slides : List PptxSlide} {r : TextRec}
    (h : r ∈ pptxSlidesText i slides) : ∃ j run, r ∈ pptxRunRecs j run := by
  induction slides generalizing i with
  | nil => simp [pptxSlidesText] at h
  | cons s rest ih =>
    simp only [pptxSlidesText, List.mem_append] at h
    rcases h with h | h
    · rw [List.mem_flatMap] at h
      obtain ⟨sh, _, hsh⟩ := h
      cases htf : sh.text_frame with
      | none =>
        rw [htf] at hsh
        simp at hsh
      | some paras =>
        rw [htf] at hsh
        rw [List.mem_flatMap] at hsh
        obtain ⟨para, _, hp⟩ := hsh
        rw [List.mem_flatMap] at hp
        obtain ⟨run, _, hr⟩ := hp
        exact ⟨i, run, hr⟩
    · exact ih h

/-- Every PDF table record is a raw grid with measured counts. -/
theorem mem_pdfPagesTables {i : Nat} {pages : List PdfPage} {t : TableRec}
    (h : t ∈ pdfPagesTables i pages) :
    ∃ j grid, t = ⟨j, grid.length, headLen grid, grid⟩ := by
  induction pages generalizing i with
  | nil => simp [pdfPagesTables] at h
  | cons p rest ih =>
    simp only [pdfPagesTables, List.mem_append] at h
    rcases h with h | h
    · rw [List.mem_map] at h
      obtain ⟨grid, _, rfl⟩ := h
      exact ⟨i + 1, grid, rfl⟩
    · exact ih h

/-- Every DOCX table record is a trimmed grid with measured counts. -/
theorem mem_docxTablesGo {i : Nat} {ts : List (List (List String))} {t : TableRec}
    (h : t ∈ docxTablesGo i ts) :
    ∃ j grid, t = ⟨j, grid.length, headLen grid, grid⟩ := by
  induction ts generalizing i with
  | nil => simp [docxTablesGo] at h
  | cons g rest ih =>
    simp only [docxTablesGo, List.mem_cons] at h
    rcases h with rfl | h
    · exact ⟨i + 1, stripGrid g, rfl⟩
    · exact ih h

/-- Every PPTX table record is a trimmed grid with measured counts. -/
theorem mem_pptxSlidesTables {i : Nat} {slides : List PptxSlide} {t : TableRec}
    (h : t ∈ pptxSlidesTables i slides) :
    ∃ j grid, t = ⟨j, grid.length, headLen grid, grid⟩ := by
  induction slides generalizing i with
  | nil => simp [pptxSlidesTables] at h
  | cons s rest ih =>
    simp only [pptxSlidesTables, List.mem_append] at h
    rcases h with h | h
    · rw [List.mem_flatMap] at h
      obtain ⟨sh, _, hsh⟩ := h
      by_cases hc : sh.has_table = true
      · rw [if_pos hc] at hsh
        rcases List.mem_singleton.mp hsh with rfl
        exact ⟨i + 1, stripGrid sh.table, rfl⟩
      · rw [if_neg hc] at hsh
        simp at hsh
    · exact ih h

/-! ## Helper lemmas: DOCX link counting -/

/-- Guarded `flatMap` is `flatMap` over the filtered list. -/
theorem flatMap_guard {α β : Type} (l : List α) (c : α → Bool) (f : α → List β) :
    (l.flatMap fun a => if c a then f a else []) = (l.filter c).flatMap f := by
  induction l with
  | nil => rfl
  | cons a t ih =>
    by_cases h : c a = true
    · simp [List.filter_cons, h, ih]
    · simp [List.filter_cons, h, ih]

/-- Per-paragraph link count for one URI: one record per matching
relationship. -/
theorem paraLinks_filter_length (rels : List DocxRel) (p : DocxPara) (uri : String) :
    ((docxParaLinks rels p).filter fun l => l.2 == uri).length =
      (rels.filter fun rel =>
        pyInStr "hyperlink" rel.reltype &&
          (!(p.text == "") && pyInStr rel.target_ref p.text) &&
          rel.target_ref == uri).length := by
  unfold docxParaLinks
  induction rels with
  | nil => rfl
  | cons rel rest ih =>
    rw [List.flatMap_cons, List.filter_append, List.length_append, ih, List.filter_cons]
    by_cases h1 : pyInStr "hyperlink" rel.reltype = true
    · by_cases h2 : (!(p.text == "") && pyInStr rel.target_ref p.text) = true
      · by_cases h3 : (rel.target_ref == uri) = true
        · simp [h1, h2, h3, List.filter_cons, Nat.add_comm]
        · simp [h1, h2, h3, List.filter_cons]
      · simp [h1, h2]
    · simp [h1]

/-- Whole-document link count for one URI. -/
theorem links_filter_length (rels : List DocxRel) (paras : List DocxPara) (uri : String) :
    ((paras.flatMap (docxParaLinks rels)).filter fun l => l.2 == uri).length =
      (paras.map fun p =>
        (rels.filter fun rel =>
          pyInStr "hyperlink" rel.reltype &&
            (!(p.text == "") && pyInStr rel.target_ref p.text) &&
            rel.target_ref == uri).length).sum := by
  induction paras with
  | nil => rfl
  | cons p rest ih =>
    rw [List.flatMap_cons, List.filter_append, List.length_append, ih, List.map_cons,
      List.sum_cons, paraLinks_filter_length]

/-- `docxParaLinks` factored through the hyperlink-type filter. -/
theorem docxParaLinks_eq (rels : List DocxRel) (p : DocxPara) :
    docxParaLinks rels p =
      (rels.filter fun x => pyInStr "hyperlink" x.reltype).flatMap fun rel =>
        if !(p.text == "") && pyInStr rel.target_ref p.text then [(1, rel.target_ref)]
        else [] := by
  unfold docxParaLinks
  induction rels with
  | nil => rfl
  | cons rel rest ih =>
    rw [List.flatMap_cons, List.filter_cons]
    by_cases h : pyInStr "hyperlink" rel.reltype = true
    · rw [if_pos h, if_pos h, List.flatMap_cons, ih]
    · rw [if_neg h, if_neg h, List.nil_append, ih]

/-! ## Claims -/

/-- C1: the heading classifier is a pure function of `(font_size, bold)`:
the size is coerced to a number with failure treated as 0, and the result is
HEADING (`true`) iff `bold` is true or the coerced size is strictly greater
than 12.0; in particular size exactly 12 with `bold = false` gives BODY. -/
theorem C1_classifier (v : PyNum) (b : Bool) :
    (is_heading v b = true ↔ (b = true ∨ floatOrZero v > 12)) ∧
      is_heading (some 12) false = false := by
  constructor
  · simp [is_heading, Bool.or_eq_true, decide_eq_true_eq]
  · rfl

/-- C2: every text record emitted by any of the three walkers has non-empty
text after trimming (no blank or whitespace-only record is appended). -/
theorem C2_no_blank_text (d : Doc) (r : TextRec) (h : r ∈ extract_text d) :
    pystrip r.text ≠ "" := by
  cases d with
  | pdf pages =>
    obtain ⟨j, s, hs⟩ := mem_pdfPagesText (by simpa [extract_text] using h)
    obtain ⟨hne, rfl⟩ := mem_pdfSpanRecs hs
    show pystrip (pystrip (s.text.getD "")) ≠ ""
    rw [pystrip_idem]
    exact hne
  | docx dd =>
    obtain ⟨run, hr⟩ := mem_docxText h
    obtain ⟨hne, rfl⟩ := mem_docxRunRecs hr
    show pystrip (pystrip run.text) ≠ ""
    rw [pystrip_idem]
    exact hne
  | pptx slides =>
    obtain ⟨j, run, hr⟩ := mem_pptxSlidesText (by simpa [extract_text] using h)
    obtain ⟨hne, rfl⟩ := mem_pptxRunRecs hr
    show pystrip (pystrip run.text) ≠ ""
    rw [pystrip_idem]
    exact hne

/-- C2 witness: the record extracted from a concrete one-run DOCX document
has non-blank trimmed text. -/
theorem C2_witness : pystrip "hi" ≠ "" :=
  C2_no_blank_text witDocxDoc ⟨1, "hi", "text", "Default", 0, false, false⟩
    (by
      rw [show extract_text witDocxDoc =
            [⟨1, "hi", "text", "Default", 0, false, false⟩] from rfl]
      exact List.mem_singleton.mpr rfl)

/-- C3: for every emitted table record, across all three walkers, `row_count`
is the number of rows of the stored grid and `col_count` is the first row's
length when the grid is non-empty and 0 when it is empty. -/
theorem C3_table_counts (d : Doc) (t : TableRec) (h : t ∈ extract_tables d) :
    t.row_count = t.cells.length ∧ t.col_count = headLen t.cells := by
  have hx : ∃ j grid, t = ⟨j, grid.length, headLen grid, grid⟩ := by
    cases d with
    | pdf pages => exact mem_pdfPagesTables (by simpa [extract_tables] using h)
    | docx dd => exact mem_docxTablesGo (by simpa [extract_tables] using h)
    | pptx slides => exact mem_pptxSlidesTables (by simpa [extract_tables] using h)
  obtain ⟨j, grid, rfl⟩ := hx
  exact ⟨rfl, rfl⟩

/-- C3 witness: the concrete 2×2 PDF table record measures its own grid. -/
theorem C3_witness :
    (2 : Nat) = ([["a", "b"], ["c", "d"]] : List (List String)).length ∧
      (2 : Nat) = headLen [["a", "b"], ["c", "d"]] :=
  C3_table_counts witPdfTablesDoc ⟨1, 2, 2, [["a", "b"], ["c", "d"]]⟩
    (by
      rw [show extract_tables witPdfTablesDoc =
            [⟨1, 2, 2, [["a", "b"], ["c", "d"]]⟩] from rfl]
      exact List.mem_singleton.mpr rfl)

/-- C4: the flat-file sink's output never depends on the extracted links
(two documents agreeing on text, tables and images get identical output
whatever their links), while the relational sink inserts exactly one row per
text record plus one per link plus one per table — image records contribute
no rows. -/
theorem C4_sink_row_accounting (d e : Doc) (m : Metadata) (fn : String)
    (ht : extract_text d = extract_text e)
    (htab : extract_tables d = extract_tables e)
    (him : extract_images d = extract_images e) :
    FileStorage_save_data d = FileStorage_save_data e ∧
      (SQLStorage_save_data m fn d).length =
        (extract_text d).length + (extract_links d).length + (extract_tables d).length := by
  constructor
  · unfold FileStorage_save_data fileWrites
    rw [ht, htab, him]
  · simp [SQLStorage_save_data, Nat.add_assoc]

/-- C4 witness: two concrete DOCX documents differing only in relationships
(hence in links) get identical flat-file output, and the relational sink
inserts 2 rows for a batch of 1 text record + 1 link + 0 tables. -/
theorem C4_witness :
    FileStorage_save_data c4DocA = FileStorage_save_data c4DocB ∧
      (SQLStorage_save_data witMeta "f.docx" c4DocA).length = 2 := by
  have h := C4_sink_row_accounting c4DocA c4DocB witMeta "f.docx" rfl rfl rfl
  exact ⟨h.1, h.2.trans rfl⟩

/-- C5 counterexample: a one-page PDF batch with two image records (k = 2)
never creates `image_2.png`; both records are written to `image_1.png` (the
record's location field), the second overwriting the first, so the claimed
`image_1.png … image_k.png` naming by emission position is false. -/
theorem C5_counterexample :
    (extract_images c5Doc).length = 2 ∧
      FileStorage_save_data c5Doc (fun _ => none) "image_2.png" = none ∧
      FileStorage_save_data c5Doc (fun _ => none) "image_1.png" =
        some (FileData.pngFile ⟨6, 6, 2⟩) :=
  ⟨rfl, rfl, rfl⟩

/-- C5 amended: the flat-file sink writes each image record to
`image_<n>.png` where `n` is the record's location field (page/slide number,
or relationship position for DOCX), not its emission position; after saving,
the file named by each record's location exists. -/
theorem C5_image_file_naming (d : Doc) (fs : FS) (r : ImageRec)
    (h : r ∈ extract_images d) :
    ∃ c, FileStorage_save_data d fs ("image_" ++ toString r.loc ++ ".png") = some c := by
  have hmem : ("image_" ++ toString r.loc ++ ".png", FileData.pngFile r.img) ∈
      fileWrites d := by
    unfold fileWrites
    refine List.mem_cons_of_mem _ (List.mem_cons_of_mem _ ?_)
    exact List.mem_map.mpr ⟨r, h, rfl⟩
  cases hf : (fileWrites d).reverse.find?
      (fun w => ("image_" ++ toString r.loc ++ ".png") == w.1) with
  | some w =>
    refine ⟨w.2, ?_⟩
    show writeAll (fileWrites d) fs _ = some w.2
    rw [writeAll_apply, hf]
  | none =>
    exfalso
    have hnone := List.find?_eq_none.mp hf _ (List.mem_reverse.mpr hmem)
    simp at hnone

/-- C5 witness: at the two-image PDF batch, the file named by the first
record's location exists after saving. -/
theorem C5_witness :
    ∃ c, FileStorage_save_data c5Doc (fun _ => none)
      ("image_" ++ toString (1 : Nat) ++ ".png") = some c :=
  C5_image_file_naming c5Doc (fun _ => none) ⟨1, "PNG", 5, 5, ⟨5, 5, 1⟩⟩
    (by
      rw [show extract_images c5Doc =
            [⟨1, "PNG", 5, 5, ⟨5, 5, 1⟩⟩, ⟨1, "PNG", 6, 6, ⟨6, 6, 2⟩⟩] from rfl]
      exact List.mem_cons_self _ _)

/-- C6: constructing a loader fails with its `ValueError` (no parsing is
modelled in the constructor) exactly when the path does not end — by a
case-sensitive suffix test — in the loader's expected extension, and returns
the loader otherwise. -/
theorem C6_loader_validation (f : Fmt) (p : String) :
    (FileLoader_init f p = .ok p ↔ ∃ t, p.data = t ++ (expectedExt f).data) ∧
      (¬(∃ t, p.data = t ++ (expectedExt f).data) →
        FileLoader_init f p = .error (errMsgOf f)) := by
  have hinit : FileLoader_init f p =
      if pyEndswith p (expectedExt f) = true then .ok p else .error (errMsgOf f) := by
    unfold FileLoader_init validate_file
    by_cases h : pyEndswith p (expectedExt f) = true
    · rw [if_pos h, if_pos h]
    · rw [if_neg h, if_neg h]
  rw [hinit]
  by_cases h : pyEndswith p (expectedExt f) = true
  · rw [if_pos h]
    exact ⟨⟨fun _ => (pyEndswith_iff _ _).mp h, fun _ => rfl⟩,
      fun hc => absurd ((pyEndswith_iff _ _).mp h) hc⟩
  · rw [if_neg h]
    constructor
    · constructor
      · intro he
        exact absurd he (by simp)
      · intro hex
        exact absurd ((pyEndswith_iff _ _).mpr hex) h
    · intro _
      rfl

/-- C6 witness: `"a.pdf"` passes PDF validation and returns the loader;
the same path fails DOCX validation with the `ValueError` message. -/
theorem C6_witness :
    FileLoader_init Fmt.pdf "a.pdf" = .ok "a.pdf" ∧
      FileLoader_init Fmt.docx "a.pdf" = .error (errMsgOf Fmt.docx) := by
  constructor
  · exact (C6_loader_validation Fmt.pdf "a.pdf").1.mpr ⟨"a".data, rfl⟩
  · refine (C6_loader_validation Fmt.docx "a.pdf").2 ?_
    intro hex
    have hend : pyEndswith "a.pdf" (expectedExt Fmt.docx) = true :=
      (pyEndswith_iff _ _).mpr hex
    exact absurd hend (by decide)

/-- C7: every PDF text record has `italic = false` and `bold = true` iff its
font name contains the substring "Bold" (case-sensitive); a span with absent
attributes defaults its font name to "Default" and its size to 0. -/
theorem C7_pdf_span_styling :
    (∀ (pages : List PdfPage) (r : TextRec), r ∈ extract_text (Doc.pdf pages) →
        r.italic = false ∧
          (r.bold = true ↔ ∃ l rr, r.font_name.data = l ++ "Bold".data ++ rr)) ∧
      (∀ (i : Nat) (s : PdfSpan), s.font = none → (pdfSpanRec i s).font_name = "Default") ∧
      (∀ (i : Nat) (s : PdfSpan), s.size = none → (pdfSpanRec i s).font_size = 0) := by
  refine ⟨?_, ?_, ?_⟩
  · intro pages r h
    obtain ⟨j, s, hs⟩ := mem_pdfPagesText (by simpa [extract_text] using h)
    obtain ⟨-, rfl⟩ := mem_pdfSpanRecs hs
    exact ⟨rfl, pyInStr_iff _ _⟩
  · intro i s hf
    show s.font.getD "Default" = "Default"
    rw [hf]
    rfl
  · intro i s hs
    show s.size.getD 0 = 0
    rw [hs]
    rfl

/-- C7 witness: an attribute-free span defaults, and the record of a concrete
bold 14pt span is non-italic. -/
theorem C7_witness :
    (pdfSpanRec 0 ⟨none, none, none⟩).font_name = "Default" ∧
      (pdfSpanRec 0 ⟨none, none, none⟩).font_size = 0 ∧
      (⟨1, "Hello PDF", "heading", "MyBoldFont", 14, true, false⟩ : TextRec).italic = false :=
  ⟨C7_pdf_span_styling.2.1 0 ⟨none, none, none⟩ rfl,
   C7_pdf_span_styling.2.2 0 ⟨none, none, none⟩ rfl,
   (C7_pdf_span_styling.1 [⟨[.text [[witPdfSpan]]], [], [], []⟩]
      ⟨1, "Hello PDF", "heading", "MyBoldFont", 14, true, false⟩
      (by
        rw [show extract_text (Doc.pdf [⟨[.text [[witPdfSpan]]], [], [], []⟩]) =
              [⟨1, "Hello PDF", "heading", "MyBoldFont", 14, true, false⟩] from rfl]
        exact List.mem_singleton.mpr rfl)).1⟩

/-- C8 counterexample: a DOCX document with exactly one paragraph (empty
text) and exactly one hyperlink-type relationship (empty target URI): the
target URI does occur as a substring of the paragraph's text, yet
`extract_links` emits nothing instead of one record at location 1. -/
theorem C8_counterexample :
    (∃ l r, ("" : String).data = l ++ ("" : String).data ++ r) ∧
      pyInStr "hyperlink" "hyperlink" = true ∧
      extract_links c8CexDoc = [] ∧ extract_links c8CexDoc ≠ [(1, "")] :=
  ⟨⟨[], [], rfl⟩, rfl, rfl, by decide⟩

/-- C8 amended: for a DOCX document with exactly one paragraph whose
relationship list contains exactly one hyperlink-type relationship, if the
paragraph's text is non-empty and the relationship's target URI occurs in it
as a substring, `extract_links` returns exactly one record, at location 1,
carrying that URI. (The original claim fails only for an empty paragraph
text, where the empty URI occurs vacuously but the code emits nothing.) -/
theorem C8_single_link (para : DocxPara) (rels : List DocxRel) (rel : DocxRel)
    (tbls : List (List (List String)))
    (hone : rels.filter (fun x => pyInStr "hyperlink" x.reltype) = [rel])
    (hne : para.text ≠ "")
    (hsub : ∃ l r, para.text.data = l ++ rel.target_ref.data ++ r) :
    extract_links (Doc.docx ⟨[para], rels, tbls⟩) = [(1, rel.target_ref)] := by
  show [para].flatMap (docxParaLinks rels) = _
  rw [List.flatMap_cons, List.flatMap_nil, List.append_nil, docxParaLinks_eq, hone,
    List.flatMap_cons, List.flatMap_nil, List.append_nil]
  have hb : (!(para.text == "") && pyInStr rel.target_ref para.text) = true := by
    rw [Bool.and_eq_true]
    refine ⟨?_, (pyInStr_iff _ _).mpr hsub⟩
    simp [hne]
  rw [if_pos hb]

/-- C8 witness: a concrete paragraph containing the single hyperlink
relationship's target URI (a non-hyperlink relationship is also present)
yields exactly one link record at location 1 with that URI. -/
theorem C8_witness :
    extract_links (Doc.docx ⟨[witC8Para], [witC8OtherRel, witC8Rel], []⟩) =
      [(1, "http://a")] :=
  C8_single_link witC8Para [witC8OtherRel, witC8Rel] witC8Rel []
    rfl
    (by decide)
    ⟨"see ".data, " now".data, rfl⟩

/-- C9 counterexample: a (paragraph, hyperlink-type relationship) pair whose
target URI (the empty string) is a substring of the paragraph's (empty) text,
yet zero records are emitted — refuting one record per matching pair as
stated. -/
theorem C9_counterexample :
    pyInStr "hyperlink" "w/hyperlink" = true ∧
      (∃ l r, ("" : String).data = l ++ ("" : String).data ++ r) ∧
      extract_links c9CexDoc = [] :=
  ⟨rfl, ⟨[], [], rfl⟩, rfl⟩

/-- C9 amended: for every DOCX document and every URI, the number of emitted
link records carrying that URI equals the number of (paragraph,
hyperlink-type relationship) pairs whose paragraph text is non-empty and
contains the relationship's target URI, with that target equal to the URI —
one record per matching pair, duplicates preserved. -/
theorem C9_link_multiplicity (d : DocxDoc) (uri : String) :
    ((extract_links (Doc.docx d)).filter fun l => l.2 == uri).length =
      (d.paragraphs.map fun p =>
        (d.rels.filter fun rel =>
          pyInStr "hyperlink" rel.reltype &&
            (!(p.text == "") && pyInStr rel.target_ref p.text) &&
            rel.target_ref == uri).length).sum :=
  links_filter_length d.rels d.paragraphs uri

/-- C10: `FileStorage.save_data` opens `text_data.txt` and `tables.csv` in
overwrite mode and saves each image at a path fixed by the record, so saving
the same extractor output twice leaves the directory exactly as one save
does: nothing appended, no extra files. -/
theorem C10_file_sink_idempotent (d : Doc) (fs : FS) :
    FileStorage_save_data d (FileStorage_save_data d fs) = FileStorage_save_data d fs :=
  writeAll_self_idem _ _
